import Mathlib

/-!
Verification development for the validator-analytics service.

The definitions below are a shallow embedding of the TypeScript sources:
the tiered cache (CacheService), the snapshot fetcher (ValidatorService)
and the change broadcaster (WebSocketService). Machine time (Date.now) is
passed explicitly as a natural number of milliseconds; asynchronous remote
calls are modelled by an explicit remote-tier state plus a failure flag,
and each operation reports how many remote calls it attempted. JavaScript
null is modelled by Option.none, and JavaScript falsiness of 0 and of the
empty string is modelled explicitly where the source relies on it.
-/

/-- Association map find: JS Map.get, first matching entry wins (entries are
prepended on set, so the first match is the most recent write). -/
def mapFind {β : Type} (m : List (String × β)) (k : String) : Option β :=
  (m.find? (fun p => p.1 = k)).map (fun p => p.2)

/-- Association map set: JS Map.set, modelled by prepending the new binding.
Lookups take the first match, so this is last-write-wins. -/
def mapSet {β : Type} (m : List (String × β)) (k : String) (v : β) :
    List (String × β) :=
  (k, v) :: m

/-- Association map delete: JS Map.delete removes every binding of the key. -/
def mapErase {β : Type} (m : List (String × β)) (k : String) :
    List (String × β) :=
  m.filter (fun p => ¬ p.1 = k)

theorem mapFind_mapSet_self {β : Type} (m : List (String × β)) (k : String)
    (v : β) : mapFind (mapSet m k v) k = some v := by
  simp [mapFind, mapSet]

theorem mapFind_mapSet_ne {β : Type} (m : List (String × β)) (k k' : String)
    (v : β) (h : k' ≠ k) : mapFind (mapSet m k v) k' = mapFind m k' := by
  have hk : decide (k = k') = false := by
    simp [decide_eq_false_iff_not]
    exact fun he => h he.symm
  simp [mapFind, mapSet, List.find?_cons, hk]

theorem mapFind_mapErase_self {β : Type} (m : List (String × β)) (k : String) :
    mapFind (mapErase m k) k = none := by
  simp only [mapFind, mapErase]
  have hfe : List.find? (fun p => decide (p.1 = k))
      (List.filter (fun p => decide ¬ p.1 = k) m) = none := by
    rw [List.find?_eq_none]
    intro p hp
    have := (List.mem_filter.mp hp).2
    simpa using this
  rw [hfe]
  rfl

/-! ## Tiered cache (CacheService, src/unnamed/part_002) -/

namespace CacheService

/-- Cache key types, from the CacheKeys enum. -/
inductive CacheKeys
  | VALIDATORS
  | VALIDATOR_DETAIL
  | EPOCH_INFO
  | NETWORK_STATS
  | VALIDATOR_HISTORY
  | WALLET_STAKE_ACCOUNTS
  deriving DecidableEq, Repr

/-- String value of each CacheKeys enum member. -/
def CacheKeys.str : CacheKeys → String
  | .VALIDATORS => "validators"
  | .VALIDATOR_DETAIL => "validator_detail"
  | .EPOCH_INFO => "epoch_info"
  | .NETWORK_STATS => "network_stats"
  | .VALIDATOR_HISTORY => "validator_history"
  | .WALLET_STAKE_ACCOUNTS => "wallet_stake_accounts"

/-- Fixed per-key-type TTLs in seconds (the CACHE_TTLS constant). -/
def CACHE_TTLS : CacheKeys → Nat
  | .VALIDATORS => 300
  | .VALIDATOR_DETAIL => 120
  | .EPOCH_INFO => 30
  | .NETWORK_STATS => 300
  | .VALIDATOR_HISTORY => 600
  | .WALLET_STAKE_ACCOUNTS => 180

/-- In-memory cache entry: CacheItem of part_002 (data plus absolute expiry
in milliseconds). The stored data is an Option because a JS value of any
type may be null. -/
structure CacheItem (α : Type) where
  data : Option α
  expires : Nat
  deriving DecidableEq, Repr

/-- State of one CacheService instance. The remote (Redis) tier is modelled
by its key-value content plus a failure switch: when redisFailing is true,
every remote call raises, which the source catches. hasRedis models
redisClient being non-null. -/
structure CacheState (α : Type) where
  hasRedis : Bool
  isRedisConnected : Bool
  redisFailing : Bool
  redisStore : List (String × Option α)
  enableInMemoryFallback : Bool
  defaultTTL : Nat
  inMemoryCache : List (String × CacheItem α)
  hits : Nat
  misses : Nat
  deriving DecidableEq, Repr

/-- Build the cache key with prefix, from buildKey: an empty-string
identifier is falsy in JS and is treated like an absent identifier. -/
def buildKey (keyType : CacheKeys) (identifier : Option String) : String :=
  let baseKey := "validator_analytics:" ++ keyType.str
  match identifier with
  | some i => if i = "" then baseKey else baseKey ++ ":" ++ i
  | none => baseKey

/-- Result of a cache get: returned value, next state, and the number of
remote-tier calls the operation attempted. -/
structure GetResult (α : Type) where
  value : Option α
  state : CacheState α
  remoteCalls : Nat
  deriving Repr

/-- CacheService.get. Tries Redis first when connected; a remote failure is
caught, marks the tier disconnected and falls through to the in-memory
tier. An in-memory entry is served only while expires is strictly in the
future; an expired entry is removed. Every other outcome is a miss. -/
def get (st : CacheState α) (now : Nat) (keyType : CacheKeys)
    (identifier : Option String) : GetResult α :=
  let key := buildKey keyType identifier
  let afterRedis : Option (Option α) × CacheState α × Nat :=
    if st.isRedisConnected ∧ st.hasRedis then
      if st.redisFailing then
        (none, { st with isRedisConnected := false }, 1)
      else
        match mapFind st.redisStore key with
        | some v => (some v, st, 1)
        | none => (none, st, 1)
    else
      (none, st, 0)
  match afterRedis with
  | (some v, st1, calls) =>
      { value := v, state := { st1 with hits := st1.hits + 1 },
        remoteCalls := calls }
  | (none, st1, calls) =>
      if st1.enableInMemoryFallback then
        match mapFind st1.inMemoryCache key with
        | some item =>
            if item.expires > now then
              { value := item.data,
                state := { st1 with hits := st1.hits + 1 },
                remoteCalls := calls }
            else
              { value := none,
                state := { st1 with
                  inMemoryCache := mapErase st1.inMemoryCache key,
                  misses := st1.misses + 1 },
                remoteCalls := calls }
        | none =>
            { value := none, state := { st1 with misses := st1.misses + 1 },
              remoteCalls := calls }
      else
        { value := none, state := { st1 with misses := st1.misses + 1 },
          remoteCalls := calls }

/-- Result of a cache set or delete: next state and number of remote-tier
calls attempted. -/
structure SetResult (α : Type) where
  state : CacheState α
  remoteCalls : Nat
  deriving Repr

/-- Effective TTL of a set call: ttlSeconds or CACHE_TTLS of the key type or
the configured default, combined with JS truthiness (0 is falsy). -/
def effectiveTTL (st : CacheState α) (keyType : CacheKeys)
    (ttlSeconds : Option Nat) : Nat :=
  match ttlSeconds with
  | some t =>
      if t ≠ 0 then t
      else if CACHE_TTLS keyType ≠ 0 then CACHE_TTLS keyType
      else st.defaultTTL
  | none =>
      if CACHE_TTLS keyType ≠ 0 then CACHE_TTLS keyType
      else st.defaultTTL

/-- CacheService.set. Writes to Redis when connected (a failure is caught
and marks the tier disconnected), then always writes the in-memory tier
when the fallback is enabled. Never raises. -/
def set (st : CacheState α) (now : Nat) (keyType : CacheKeys)
    (value : Option α) (identifier : Option String)
    (ttlSeconds : Option Nat) : SetResult α :=
  let key := buildKey keyType identifier
  let ttl := effectiveTTL st keyType ttlSeconds
  let (st1, calls) : CacheState α × Nat :=
    if st.isRedisConnected ∧ st.hasRedis then
      if st.redisFailing then
        ({ st with isRedisConnected := false }, 1)
      else
        ({ st with redisStore := mapSet st.redisStore key value }, 1)
    else
      (st, 0)
  if st1.enableInMemoryFallback then
    { state := { st1 with
        inMemoryCache := mapSet st1.inMemoryCache key
          { data := value, expires := now + ttl * 1000 } },
      remoteCalls := calls }
  else
    { state := st1, remoteCalls := calls }

/-- CacheService.delete. Deletes from Redis when connected (a failure is
caught and marks the tier disconnected), then always deletes from the
in-memory tier. -/
def delete (st : CacheState α) (keyType : CacheKeys)
    (identifier : Option String) : SetResult α :=
  let key := buildKey keyType identifier
  let (st1, calls) : CacheState α × Nat :=
    if st.isRedisConnected ∧ st.hasRedis then
      if st.redisFailing then
        ({ st with isRedisConnected := false }, 1)
      else
        ({ st with redisStore := mapErase st.redisStore key }, 1)
    else
      (st, 0)
  { state := { st1 with inMemoryCache := mapErase st1.inMemoryCache key },
    remoteCalls := calls }

/-- Result of cacheOrFetch: returned value, next state, number of times the
fetch function was invoked, and remote calls attempted. -/
structure FetchResult (α : Type) where
  value : Option α
  state : CacheState α
  fetchCalls : Nat
  remoteCalls : Nat
  deriving Repr

/-- CacheService.cacheOrFetch. Returns the cached value when get yields a
non-null value; otherwise invokes the fetch function, stores its result
and returns it. The fetch function may resolve to null (none). -/
def cacheOrFetch (st : CacheState α) (now : Nat) (keyType : CacheKeys)
    (fetchFunction : Unit → Option α) (identifier : Option String)
    (ttlSeconds : Option Nat) : FetchResult α :=
  let r := get st now keyType identifier
  match r.value with
  | some v =>
      { value := some v, state := r.state, fetchCalls := 0,
        remoteCalls := r.remoteCalls }
  | none =>
      let data := fetchFunction ()
      let w := set r.state now keyType data identifier ttlSeconds
      { value := data, state := w.state, fetchCalls := 1,
        remoteCalls := r.remoteCalls + w.remoteCalls }

/-- One public cache operation, for reasoning about operation sequences. -/
inductive CacheOp (α : Type)
  | opGet (now : Nat) (keyType : CacheKeys) (identifier : Option String)
  | opSet (now : Nat) (keyType : CacheKeys) (value : Option α)
      (identifier : Option String) (ttlSeconds : Option Nat)
  | opDelete (keyType : CacheKeys) (identifier : Option String)

/-- Run one operation, keeping the next state and its remote-call count. -/
def runOp (st : CacheState α) : CacheOp α → CacheState α × Nat
  | .opGet now kt id =>
      let r := get st now kt id
      (r.state, r.remoteCalls)
  | .opSet now kt v id ttl =>
      let r := set st now kt v id ttl
      (r.state, r.remoteCalls)
  | .opDelete kt id =>
      let r := delete st kt id
      (r.state, r.remoteCalls)

/-- Run a sequence of operations, accumulating remote-call counts. -/
def runOps (st : CacheState α) : List (CacheOp α) → CacheState α × Nat
  | [] => (st, 0)
  | op :: rest =>
      let (st1, c) := runOp st op
      let (st2, cs) := runOps st1 rest
      (st2, c + cs)

end CacheService

/-! ## Snapshot fetcher (ValidatorService, src/src/services/validatorService.ts) -/

namespace ValidatorService

/-- JS expression x || null for an optional number: null and 0 are falsy. -/
def jsOrNullNat (x : Option Nat) : Option Nat :=
  match x with
  | some n => if n = 0 then none else some n
  | none => none

/-- JS expression x || null for an optional string: null, undefined and the
empty string are falsy. -/
def jsOrNullStr (x : Option String) : Option String :=
  match x with
  | some s => if s = "" then none else some s
  | none => none

/-- One entry of getVoteAccounts (current or delinquent list). The rootSlot
and lastVote properties may be absent from the upstream payload. -/
structure VoteAccountEntry where
  votePubkey : String
  nodePubkey : String
  activatedStake : Nat
  commission : Nat
  epochVoteAccount : Bool
  epochCredits : List (Nat × Nat × Nat)
  lastVote : Option Nat
  rootSlot : Option Nat
  deriving DecidableEq, Repr

/-- Payload of getVoteAccounts; either list may be missing. -/
structure VoteAccountStatus where
  current : Option (List VoteAccountEntry)
  delinquent : Option (List VoteAccountEntry)
  deriving Repr

/-- Payload of getEpochInfo (only the epoch number is consumed here). -/
structure EpochInfo where
  epoch : Nat
  deriving Repr

/-- The ValidatorInfo record assembled by getValidators. -/
structure ValidatorInfo where
  identity : String
  name : Option String
  stake : Nat
  commission : Nat
  activatedStake : Nat
  epochVoteAccount : Bool
  nodePubkey : String
  rootSlot : Option Nat
  lastVote : Option Nat
  epochCredits : List (Nat × Nat × Nat)
  deriving DecidableEq, Repr

/-- The ValidatorInfoResponse returned by getValidators. -/
structure ValidatorInfoResponse where
  validators : List ValidatorInfo
  epoch : Nat
  totalValidators : Nat
  totalStake : Nat
  timestamp : Nat
  deriving Repr

/-- MAX_RETRIES of ValidatorService. -/
def MAX_RETRIES : Nat := 3

/-- BATCH_SIZE of ValidatorService. -/
def BATCH_SIZE : Nat := 50

/-- One metadata-lookup attempt either raises (error, from the RPC call or a
timeout) or completes with the parsed name, which may be absent. -/
abbrev AttemptOutcome := Except Unit (Option String)

/-- Retry loop of getValidatorName: run attempts with the given fuel; a
completed attempt returns its value at once (even when that value is null),
a raised attempt retries until the fuel is exhausted, and exhaustion
returns null rather than raising. -/
def retryLoop (attempt : Nat → AttemptOutcome) : Nat → Nat → Option String
  | _, 0 => none
  | i, Nat.succ fuel =>
      match attempt i with
      | .ok o => o
      | .error _ => if fuel = 0 then none else retryLoop attempt (i + 1) fuel

/-- getValidatorName with the attempt outcomes supplied as an oracle: runs
at most MAX_RETRIES attempts and never raises. -/
def getValidatorName (attempt : Nat → AttemptOutcome) : Option String :=
  retryLoop attempt 1 MAX_RETRIES

/-- Step of processBatch for one votePubkey: the name is recorded only when
the lookup produced a truthy (non-null, non-empty) string; a failed or
empty lookup leaves the map unchanged. -/
def batchStep (attempt : String → Nat → AttemptOutcome)
    (m : List (String × String)) (votePubkey : String) :
    List (String × String) :=
  match getValidatorName (attempt votePubkey) with
  | some name => if name = "" then m else mapSet m votePubkey name
  | none => m

/-- processBatch: every lookup of the batch runs under its own catch, so the
batch records exactly the truthy names of the lookups that completed. -/
def processBatch (attempt : String → Nat → AttemptOutcome)
    (votePubkeys : List String) (m : List (String × String)) :
    List (String × String) :=
  votePubkeys.foldl (batchStep attempt) m

/-- Fuel-driven splitting of a list into chunks of BATCH_SIZE; the fuel is
only there to make the recursion structural and is always at least the
length of the list when called through chunksOf. -/
def chunksOfAux : Nat → List String → List (List String)
  | 0, _ => []
  | _, [] => []
  | Nat.succ fuel, x :: xs =>
      (x :: xs).take BATCH_SIZE :: chunksOfAux fuel ((x :: xs).drop BATCH_SIZE)

/-- Split a list into chunks of BATCH_SIZE, as the slicing loop of
fetchValidatorInfoBatch does. -/
def chunksOf (l : List String) : List (List String) :=
  chunksOfAux l.length l

/-- fetchValidatorInfoBatch: process the votekeys in batches of BATCH_SIZE,
starting from an empty map; a failed batch does not abort the loop. -/
def fetchValidatorInfoBatch (attempt : String → Nat → AttemptOutcome)
    (votePubkeys : List String) : List (String × String) :=
  (chunksOf votePubkeys).foldl
    (fun m batch => processBatch attempt batch m) []

/-- Build one ValidatorInfo record from a vote-account entry and the name
map, as the map in getValidators does (rootSlot and lastVote go through the
JS expression x || null). -/
def toValidatorInfo (infoMap : List (String × String))
    (v : VoteAccountEntry) : ValidatorInfo :=
  { identity := v.votePubkey
    name := jsOrNullStr (mapFind infoMap v.votePubkey)
    stake := v.activatedStake
    commission := v.commission
    activatedStake := v.activatedStake
    epochVoteAccount := v.epochVoteAccount
    nodePubkey := v.nodePubkey
    rootSlot := jsOrNullNat v.rootSlot
    lastVote := jsOrNullNat v.lastVote
    epochCredits := v.epochCredits }

/-- getValidators. The two mandatory upstream calls are passed as Except
values (an error models a raised RPC failure or timeout); either failure
makes the whole call fail. A null vote-accounts payload yields the empty
response. Otherwise current and delinquent are concatenated, names are
resolved in batches, and totals are computed by summing stake. -/
def getValidators (epochInfo : Except String EpochInfo)
    (voteAccounts : Except String (Option VoteAccountStatus))
    (attempt : String → Nat → AttemptOutcome) (now : Nat) :
    Except String ValidatorInfoResponse :=
  match epochInfo with
  | .error e => .error ("Failed to fetch validator data: " ++ e)
  | .ok ei =>
      match voteAccounts with
      | .error e => .error ("Failed to fetch validator data: " ++ e)
      | .ok none =>
          .ok { validators := [], epoch := ei.epoch, totalValidators := 0,
                totalStake := 0, timestamp := now }
      | .ok (some va) =>
          let currentValidators := va.current.getD []
          let delinquentValidators := va.delinquent.getD []
          let allValidators := currentValidators ++ delinquentValidators
          let infoMap := fetchValidatorInfoBatch attempt
            (allValidators.map (fun v => v.votePubkey))
          let validators := allValidators.map (toValidatorInfo infoMap)
          let totalStake := validators.foldl (fun sum v => sum + v.stake) 0
          .ok { validators := validators, epoch := ei.epoch,
                totalValidators := validators.length,
                totalStake := totalStake, timestamp := now }

end ValidatorService

/-! ## Change broadcaster (WebSocketService, src/src/services/websocketService.ts) -/

namespace WebSocketService

open ValidatorService

/-- A connection is identified by a number (one WebSocket object each). -/
abbrev Client := Nat

/-- Baseline stored per validator identity in lastValidatorStates. -/
structure VState where
  commission : Nat
  epochVoteAccount : Bool
  lastVote : Option Nat
  deriving DecidableEq, Repr

/-- Payload of one outbound update event (the data field, a tagged union in
place of the dynamic object literals of the source). -/
inductive EventData
  | commissionChange (voteAccount : String) (validatorName : Option String)
      (oldCommission : Nat) (newCommission : Nat) (epoch : Nat)
  | delinquencyAlert (voteAccount : String) (validatorName : Option String)
      (delinquent : Bool) (missedSlots : Nat)
  | performanceUpdate (voteAccount : String) (currentSlot : Nat)
      (lastVote : Option Nat) (skipRate : Nat) (creditsEarned : Nat)
  deriving DecidableEq, Repr

/-- One ValidatorUpdateEvent: the type tag string, the validator key the
event is about, the payload and the timestamp. -/
structure UpdateEvent where
  type : String
  voteAccount : String
  data : EventData
  timestamp : Nat
  deriving DecidableEq, Repr

/-- Broadcaster state: the set of open connections, the per-connection
subscription sets, and the per-validator baselines. -/
structure WSState where
  clients : List Client
  subscriptions : List (Client × List String)
  lastValidatorStates : List (String × VState)
  deriving Repr

/-- Subscription lookup keyed by the numeric connection id. -/
def subsOf (st : WSState) (ws : Client) : Option (List String) :=
  (st.subscriptions.find? (fun p => p.1 = ws)).map (fun p => p.2)

/-- Store a subscription set for a connection. -/
def setSubs (st : WSState) (ws : Client) (subs : List String) : WSState :=
  { st with subscriptions := (ws, subs) :: st.subscriptions }

/-- JS Set.add on a subscription-key list: no duplicate entries. -/
def setAdd (s : List String) (x : String) : List String :=
  if x ∈ s then s else s ++ [x]

/-- Outbound non-event replies sent to a single connection. -/
inductive OutMsg
  | errorMsg (message : String)
  | subscribedMsg (voteAccount : String) (events : List String)
  | pongMsg
  deriving DecidableEq, Repr

/-- The valid subscription event names of handleSubscribe. -/
def validEvents : List String := ["performance", "delinquency", "commission"]

/-- handleSubscribe. A falsy voteAccount (absent or empty) is an error. The
events field defaults to all valid events when absent; when any requested
name is invalid an error is replied and nothing is added; otherwise every
requested name is added to the subscription set as voteAccount:event. -/
def handleSubscribe (st : WSState) (ws : Client)
    (voteAccount : Option String) (events : Option (List String)) :
    WSState × List OutMsg :=
  match voteAccount with
  | none => (st, [.errorMsg "voteAccount is required for subscription"])
  | some va =>
      if va = "" then
        (st, [.errorMsg "voteAccount is required for subscription"])
      else
        let subscribeTo := events.getD validEvents
        let invalidEvents :=
          subscribeTo.filter (fun e => ¬ validEvents.contains e)
        if invalidEvents ≠ [] then
          (st, [.errorMsg ("Invalid event types: " ++
            String.intercalate ", " invalidEvents)])
        else
          let clientSubscriptions := (subsOf st ws).getD []
          let newSubs := subscribeTo.foldl
            (fun s e => setAdd s (va ++ ":" ++ e)) clientSubscriptions
          (setSubs st ws newSubs, [.subscribedMsg va subscribeTo])

/-- First underscore-separated token of a string: the JS expression
s.split(underscore)[0], which is the run of characters before the first
underscore (the whole string when it has none). -/
def firstToken (s : String) : String :=
  String.mk (s.toList.takeWhile (fun c => c ≠ '_'))

/-- Routing key computed by broadcast: the voteAccount of the event joined
with the first underscore-separated token of the event type tag. -/
def eventKey (e : UpdateEvent) : String :=
  e.voteAccount ++ ":" ++ firstToken e.type

/-- broadcast: deliver the event to every open connection whose subscription
set contains the routing key. The result lists the deliveries made. -/
def broadcast (st : WSState) (e : UpdateEvent) :
    List (Client × UpdateEvent) :=
  st.clients.filterMap (fun ws =>
    match subsOf st ws with
    | some subs => if eventKey e ∈ subs then some (ws, e) else none
    | none => none)

/-- Baseline recorded for a validator (the object literal stored into
lastValidatorStates). -/
def baselineOf (v : ValidatorInfo) : VState :=
  { commission := v.commission, epochVoteAccount := v.epochVoteAccount,
    lastVote := v.lastVote }

/-- Events emitted for one already-tracked validator in one cycle, in source
order: commission change, then delinquency flip, then performance. -/
def diffValidator (lastState : VState) (v : ValidatorInfo) (epoch : Nat)
    (now : Nat) : List UpdateEvent :=
  let commissionEvents :=
    if lastState.commission ≠ v.commission then
      [{ type := "commission_change", voteAccount := v.identity,
         data := .commissionChange v.identity v.name lastState.commission
           v.commission epoch,
         timestamp := now } ]
    else []
  let delinquencyEvents :=
    if lastState.epochVoteAccount ∧ ¬ v.epochVoteAccount then
      [{ type := "delinquency_alert", voteAccount := v.identity,
         data := .delinquencyAlert v.identity v.name true 0,
         timestamp := now } ]
    else if ¬ lastState.epochVoteAccount ∧ v.epochVoteAccount then
      [{ type := "delinquency_alert", voteAccount := v.identity,
         data := .delinquencyAlert v.identity v.name false 0,
         timestamp := now } ]
    else []
  let performanceEvents :=
    if lastState.lastVote ≠ v.lastVote then
      [{ type := "validator_performance", voteAccount := v.identity,
         data := .performanceUpdate v.identity (v.lastVote.getD 0)
           v.lastVote 0 0,
         timestamp := now } ]
    else []
  commissionEvents ++ delinquencyEvents ++ performanceEvents

/-- Result of one monitoring cycle: the next broadcaster state, the events
passed to broadcast, and the deliveries broadcast made. -/
structure CycleResult where
  state : WSState
  emitted : List UpdateEvent
  delivered : List (Client × UpdateEvent)
  deriving Repr

/-- Step of checkValidatorUpdates for one validator of the snapshot: an
unseen validator only gets its baseline stored (priming); a tracked one is
diffed against its baseline, each resulting event is broadcast, and the
baseline is updated. -/
def cycleStep (epoch : Nat) (now : Nat) (acc : CycleResult)
    (v : ValidatorInfo) : CycleResult :=
  let st := acc.state
  let tracked := mapSet st.lastValidatorStates v.identity (baselineOf v)
  match mapFind st.lastValidatorStates v.identity with
  | none =>
      { acc with state := { st with lastValidatorStates := tracked } }
  | some lastState =>
      let evs := diffValidator lastState v epoch now
      { state := { st with lastValidatorStates := tracked },
        emitted := acc.emitted ++ evs,
        delivered := acc.delivered ++ evs.flatMap (broadcast st) }

/-- checkValidatorUpdates: one monitoring cycle over a fetched snapshot. -/
def checkValidatorUpdates (st : WSState) (validatorData : ValidatorInfoResponse)
    (now : Nat) : CycleResult :=
  validatorData.validators.foldl (cycleStep validatorData.epoch now)
    { state := st, emitted := [], delivered := [] }

end WebSocketService

/-! ## Helper lemmas about the cache embedding -/

namespace CacheService

theorem CACHE_TTLS_pos (kt : CacheKeys) : CACHE_TTLS kt ≠ 0 := by
  cases kt <;> simp [CACHE_TTLS]

theorem effectiveTTL_some {α : Type} (st : CacheState α) (kt : CacheKeys)
    (t : Nat) (ht : t ≠ 0) : effectiveTTL st kt (some t) = t := by
  simp [effectiveTTL, ht]

theorem effectiveTTL_none {α : Type} (st : CacheState α) (kt : CacheKeys) :
    effectiveTTL st kt none = CACHE_TTLS kt := by
  simp [effectiveTTL, CACHE_TTLS_pos]

theorem effectiveTTL_zero {α : Type} (st : CacheState α) (kt : CacheKeys) :
    effectiveTTL st kt (some 0) = CACHE_TTLS kt := by
  simp [effectiveTTL, CACHE_TTLS_pos]

theorem get_noRemote_absent {α : Type} (st : CacheState α) (now : Nat)
    (kt : CacheKeys) (id : Option String)
    (hno : ¬ (st.isRedisConnected = true ∧ st.hasRedis = true))
    (hmem : st.enableInMemoryFallback = true)
    (habs : mapFind st.inMemoryCache (buildKey kt id) = none) :
    get st now kt id =
      { value := none, state := { st with misses := st.misses + 1 },
        remoteCalls := 0 } := by
  simp [get, hno, hmem, habs]

theorem get_noRemote_hit {α : Type} (st : CacheState α) (now : Nat)
    (kt : CacheKeys) (id : Option String) (item : CacheItem α)
    (hno : ¬ (st.isRedisConnected = true ∧ st.hasRedis = true))
    (hmem : st.enableInMemoryFallback = true)
    (hfind : mapFind st.inMemoryCache (buildKey kt id) = some item)
    (hexp : item.expires > now) :
    get st now kt id =
      { value := item.data, state := { st with hits := st.hits + 1 },
        remoteCalls := 0 } := by
  simp [get, hno, hmem, hfind, hexp]

theorem get_noRemote_expired {α : Type} (st : CacheState α) (now : Nat)
    (kt : CacheKeys) (id : Option String) (item : CacheItem α)
    (hno : ¬ (st.isRedisConnected = true ∧ st.hasRedis = true))
    (hmem : st.enableInMemoryFallback = true)
    (hfind : mapFind st.inMemoryCache (buildKey kt id) = some item)
    (hexp : ¬ item.expires > now) :
    get st now kt id =
      { value := none,
        state := { st with
          inMemoryCache := mapErase st.inMemoryCache (buildKey kt id),
          misses := st.misses + 1 },
        remoteCalls := 0 } := by
  simp [get, hno, hmem, hfind, hexp]

theorem set_noRemote {α : Type} (st : CacheState α) (now : Nat)
    (kt : CacheKeys) (v : Option α) (id : Option String)
    (ttl : Option Nat)
    (hno : ¬ (st.isRedisConnected = true ∧ st.hasRedis = true))
    (hmem : st.enableInMemoryFallback = true) :
    set st now kt v id ttl =
      { state := { st with
          inMemoryCache := mapSet st.inMemoryCache (buildKey kt id)
            { data := v, expires := now + effectiveTTL st kt ttl * 1000 } },
        remoteCalls := 0 } := by
  simp [set, hno, hmem]

theorem get_remoteFailing {α : Type} (st : CacheState α) (now : Nat)
    (kt : CacheKeys) (id : Option String)
    (hc : st.isRedisConnected = true) (hh : st.hasRedis = true)
    (hf : st.redisFailing = true) :
    get st now kt id =
      { get { st with isRedisConnected := false } now kt id with
        remoteCalls := 1 } := by
  cases hfb : st.enableInMemoryFallback with
  | false => simp [get, hc, hh, hf, hfb]
  | true =>
      cases hm : mapFind st.inMemoryCache (buildKey kt id) with
      | none => simp [get, hc, hh, hf, hfb, hm]
      | some item =>
          by_cases he : item.expires > now <;>
            simp [get, hc, hh, hf, hfb, hm, he]

theorem set_remoteFailing {α : Type} (st : CacheState α) (now : Nat)
    (kt : CacheKeys) (v : Option α) (id : Option String) (ttl : Option Nat)
    (hc : st.isRedisConnected = true) (hh : st.hasRedis = true)
    (hf : st.redisFailing = true) :
    set st now kt v id ttl =
      { set { st with isRedisConnected := false } now kt v id ttl with
        remoteCalls := 1 } := by
  cases hfb : st.enableInMemoryFallback with
  | false => simp [set, effectiveTTL, hc, hh, hf, hfb]
  | true => simp [set, effectiveTTL, hc, hh, hf, hfb]

theorem delete_remoteFailing {α : Type} (st : CacheState α)
    (kt : CacheKeys) (id : Option String)
    (hc : st.isRedisConnected = true) (hh : st.hasRedis = true)
    (hf : st.redisFailing = true) :
    delete st kt id =
      { delete { st with isRedisConnected := false } kt id with
        remoteCalls := 1 } := by
  simp [delete, hc, hh, hf]

theorem get_disconnected {α : Type} (st : CacheState α) (now : Nat)
    (kt : CacheKeys) (id : Option String)
    (hc : st.isRedisConnected = false) :
    (get st now kt id).remoteCalls = 0 ∧
      (get st now kt id).state.isRedisConnected = false := by
  have hno : ¬ (st.isRedisConnected = true ∧ st.hasRedis = true) := by
    simp [hc]
  cases hfb : st.enableInMemoryFallback with
  | false => simp [get, hno, hfb, hc]
  | true =>
      cases hm : mapFind st.inMemoryCache (buildKey kt id) with
      | none => simp [get, hno, hfb, hm, hc]
      | some item =>
          by_cases he : item.expires > now <;>
            simp [get, hno, hfb, hm, he, hc]

theorem set_disconnected {α : Type} (st : CacheState α) (now : Nat)
    (kt : CacheKeys) (v : Option α) (id : Option String) (ttl : Option Nat)
    (hc : st.isRedisConnected = false) :
    (set st now kt v id ttl).remoteCalls = 0 ∧
      (set st now kt v id ttl).state.isRedisConnected = false := by
  have hno : ¬ (st.isRedisConnected = true ∧ st.hasRedis = true) := by
    simp [hc]
  cases hfb : st.enableInMemoryFallback with
  | false => simp [set, hno, hfb, hc]
  | true => simp [set, hno, hfb, hc]

theorem delete_disconnected {α : Type} (st : CacheState α)
    (kt : CacheKeys) (id : Option String)
    (hc : st.isRedisConnected = false) :
    (delete st kt id).remoteCalls = 0 ∧
      (delete st kt id).state.isRedisConnected = false := by
  have hno : ¬ (st.isRedisConnected = true ∧ st.hasRedis = true) := by
    simp [hc]
  simp [delete, hno, hc]

theorem runOp_disconnected {α : Type} (st : CacheState α) (op : CacheOp α)
    (hc : st.isRedisConnected = false) :
    (runOp st op).2 = 0 ∧ (runOp st op).1.isRedisConnected = false := by
  cases op with
  | opGet now kt id => exact get_disconnected st now kt id hc
  | opSet now kt v id ttl => exact set_disconnected st now kt v id ttl hc
  | opDelete kt id => exact delete_disconnected st kt id hc

theorem runOps_disconnected {α : Type} (ops : List (CacheOp α)) :
    ∀ st : CacheState α, st.isRedisConnected = false →
      (runOps st ops).2 = 0 ∧ (runOps st ops).1.isRedisConnected = false := by
  induction ops with
  | nil => intro st hc; simp [runOps, hc]
  | cons op rest ih =>
      intro st hc
      have h1 := runOp_disconnected st op hc
      have h2 := ih (runOp st op).1 h1.2
      simp [runOps, h1.1, h1.2, h2.1, h2.2]

end CacheService

/-! ## Concrete cache states used by witnesses and counterexamples -/

/-- A cache running on the in-memory tier only (no Redis URL configured),
with the constructor defaults of the exported singleton. -/
def memOnlyNat : CacheService.CacheState Nat :=
  { hasRedis := false, isRedisConnected := false, redisFailing := false,
    redisStore := [], enableInMemoryFallback := true, defaultTTL := 60,
    inMemoryCache := [], hits := 0, misses := 0 }

/-- A cache whose remote tier is connected but raises on every call. -/
def remoteFailingNat : CacheService.CacheState Nat :=
  { memOnlyNat with
      hasRedis := true
      isRedisConnected := true
      redisFailing := true }

namespace CacheService

/-- C1 counterexample: with a fetch function that resolves to null, two
successive cacheOrFetch calls within an unexpired TTL (1000ms and 2000ms,
TTL 10s) invoke the fetch function once each, twice in total, refuting the
claim that it is invoked exactly once for every fetch function. -/
theorem c1_null_fetch_counterexample :
    2000 < 1000 + 10 * 1000 ∧
    (cacheOrFetch memOnlyNat 1000 .VALIDATORS (fun _ => none) none
      (some 10)).fetchCalls = 1 ∧
    (cacheOrFetch
      (cacheOrFetch memOnlyNat 1000 .VALIDATORS (fun _ => none) none
        (some 10)).state
      2000 .VALIDATORS (fun _ => none) none (some 10)).fetchCalls = 1 := by
  decide

/-- C1 (amended): for every fetch function that resolves to a non-null
value, two successive cacheOrFetch calls within an unexpired TTL invoke
the fetch function exactly once — the first call invokes it, stores the
result and returns it, the second returns the cached value without
invoking it — and a call after TTL expiry invokes it again. -/
theorem c1_cacheOrFetch_fetches_once {α : Type} (st : CacheState α)
    (now1 now2 now3 : Nat) (kt : CacheKeys) (id : Option String) (ttl : Nat)
    (f : Unit → Option α) (v : α)
    (hf : f () = some v)
    (hr : st.hasRedis = false)
    (hmem : st.enableInMemoryFallback = true)
    (habs : mapFind st.inMemoryCache (buildKey kt id) = none)
    (httl : ttl ≠ 0)
    (h2 : now2 < now1 + ttl * 1000)
    (h3 : ¬ now3 < now1 + ttl * 1000) :
    (cacheOrFetch st now1 kt f id (some ttl)).fetchCalls = 1 ∧
    (cacheOrFetch st now1 kt f id (some ttl)).value = some v ∧
    (cacheOrFetch (cacheOrFetch st now1 kt f id (some ttl)).state
      now2 kt f id (some ttl)).fetchCalls = 0 ∧
    (cacheOrFetch (cacheOrFetch st now1 kt f id (some ttl)).state
      now2 kt f id (some ttl)).value = some v ∧
    (cacheOrFetch (cacheOrFetch (cacheOrFetch st now1 kt f id
      (some ttl)).state now2 kt f id (some ttl)).state
      now3 kt f id (some ttl)).fetchCalls = 1 := by
  have hno : ¬ (st.isRedisConnected = true ∧ st.hasRedis = true) := by
    simp [hr]
  have hget1 := get_noRemote_absent st now1 kt id hno hmem habs
  have hno0 : ¬ (({ st with misses := st.misses + 1 } :
      CacheState α).isRedisConnected = true ∧
      ({ st with misses := st.misses + 1 } :
        CacheState α).hasRedis = true) := by simp [hr]
  have hset1 := set_noRemote { st with misses := st.misses + 1 } now1 kt
    (some v) id (some ttl) hno0 hmem
  rw [effectiveTTL_some _ kt ttl httl] at hset1
  have e1 : cacheOrFetch st now1 kt f id (some ttl) =
      { value := some v,
        state := { st with
          misses := st.misses + 1
          inMemoryCache := mapSet st.inMemoryCache (buildKey kt id)
            { data := some v, expires := now1 + ttl * 1000 } },
        fetchCalls := 1, remoteCalls := 0 } := by
    simp [cacheOrFetch, hget1, hf, hset1]
  have hfind2 : mapFind (mapSet st.inMemoryCache (buildKey kt id)
      { data := some v, expires := now1 + ttl * 1000 }) (buildKey kt id) =
      some { data := some v, expires := now1 + ttl * 1000 } :=
    mapFind_mapSet_self _ _ _
  have hget2 := get_noRemote_hit
    { st with
        misses := st.misses + 1
        inMemoryCache := mapSet st.inMemoryCache (buildKey kt id)
          { data := some v, expires := now1 + ttl * 1000 } }
    now2 kt id { data := some v, expires := now1 + ttl * 1000 }
    (by simp [hr]) hmem hfind2 h2
  have e2 : cacheOrFetch (cacheOrFetch st now1 kt f id (some ttl)).state
      now2 kt f id (some ttl) =
      { value := some v,
        state := { st with
          misses := st.misses + 1
          hits := st.hits + 1
          inMemoryCache := mapSet st.inMemoryCache (buildKey kt id)
            { data := some v, expires := now1 + ttl * 1000 } },
        fetchCalls := 0, remoteCalls := 0 } := by
    rw [e1]
    simp [cacheOrFetch, hget2]
  have hget3 := get_noRemote_expired
    { st with
        misses := st.misses + 1
        hits := st.hits + 1
        inMemoryCache := mapSet st.inMemoryCache (buildKey kt id)
          { data := some v, expires := now1 + ttl * 1000 } }
    now3 kt id { data := some v, expires := now1 + ttl * 1000 }
    (by simp [hr]) hmem hfind2 h3
  refine ⟨by rw [e1], by rw [e1], by rw [e2], by rw [e2], ?_⟩
  rw [e2]
  simp [cacheOrFetch, hget3]

/-- C1 witness: the amended theorem applied at a concrete input. -/
theorem c1_witness :
    (cacheOrFetch memOnlyNat 1000 .VALIDATORS (fun _ => some 5) none
      (some 10)).fetchCalls = 1 ∧
    (cacheOrFetch memOnlyNat 1000 .VALIDATORS (fun _ => some 5) none
      (some 10)).value = some 5 ∧
    (cacheOrFetch (cacheOrFetch memOnlyNat 1000 .VALIDATORS
      (fun _ => some 5) none (some 10)).state
      2000 .VALIDATORS (fun _ => some 5) none (some 10)).fetchCalls = 0 ∧
    (cacheOrFetch (cacheOrFetch memOnlyNat 1000 .VALIDATORS
      (fun _ => some 5) none (some 10)).state
      2000 .VALIDATORS (fun _ => some 5) none (some 10)).value = some 5 ∧
    (cacheOrFetch (cacheOrFetch (cacheOrFetch memOnlyNat 1000 .VALIDATORS
      (fun _ => some 5) none (some 10)).state 2000 .VALIDATORS
      (fun _ => some 5) none (some 10)).state
      11001 .VALIDATORS (fun _ => some 5) none (some 10)).fetchCalls = 1 :=
  c1_cacheOrFetch_fetches_once memOnlyNat 1000 2000 11001 .VALIDATORS none
    10 (fun _ => some 5) 5 rfl rfl rfl rfl (by decide) (by decide)
    (by decide)

end CacheService

namespace CacheService

/-- C9 counterexample: a set call with the explicit TTL argument 0 on the
validator-list key stores an entry expiring after the 300s type default,
not after the explicit 0 seconds, refuting the claim that every explicit
TTL argument — including zero — determines the stored expiry. -/
theorem c9_ttl_zero_counterexample :
    mapFind (CacheService.set memOnlyNat 1000 .VALIDATORS (some 1) none
        (some 0)).state.inMemoryCache (buildKey .VALIDATORS none) =
      some { data := some 1, expires := 1000 + 300 * 1000 } ∧
    (1000 + 300 * 1000 : Nat) ≠ 1000 + 0 * 1000 := by
  decide

/-- C9 (amended): an explicit nonzero TTL argument always determines the
stored expiry; an explicit TTL of 0 is falsy and is treated like an
omitted argument, so the fixed per-key-type default applies, with the
documented defaults: validator list 300s, single-validator detail 120s,
epoch info 30s, network stats 300s, per-wallet stake accounts 180s. -/
theorem c9_ttl_policy {α : Type} (st : CacheState α) (now : Nat)
    (kt : CacheKeys) (v : Option α) (id : Option String) (t : Nat)
    (hmem : st.enableInMemoryFallback = true)
    (hno : ¬ (st.isRedisConnected = true ∧ st.hasRedis = true))
    (ht : t ≠ 0) :
    mapFind (set st now kt v id (some t)).state.inMemoryCache
        (buildKey kt id) =
      some { data := v, expires := now + t * 1000 } ∧
    mapFind (set st now kt v id none).state.inMemoryCache
        (buildKey kt id) =
      some { data := v, expires := now + CACHE_TTLS kt * 1000 } ∧
    mapFind (set st now kt v id (some 0)).state.inMemoryCache
        (buildKey kt id) =
      some { data := v, expires := now + CACHE_TTLS kt * 1000 } ∧
    CACHE_TTLS .VALIDATORS = 300 ∧ CACHE_TTLS .VALIDATOR_DETAIL = 120 ∧
    CACHE_TTLS .EPOCH_INFO = 30 ∧ CACHE_TTLS .NETWORK_STATS = 300 ∧
    CACHE_TTLS .WALLET_STAKE_ACCOUNTS = 180 := by
  have hs1 := set_noRemote st now kt v id (some t) hno hmem
  rw [effectiveTTL_some st kt t ht] at hs1
  have hs2 := set_noRemote st now kt v id none hno hmem
  rw [effectiveTTL_none st kt] at hs2
  have hs3 := set_noRemote st now kt v id (some 0) hno hmem
  rw [effectiveTTL_zero st kt] at hs3
  refine ⟨?_, ?_, ?_, rfl, rfl, rfl, rfl, rfl⟩
  · rw [hs1]; exact mapFind_mapSet_self _ _ _
  · rw [hs2]; exact mapFind_mapSet_self _ _ _
  · rw [hs3]; exact mapFind_mapSet_self _ _ _

/-- C9 witness: the amended TTL policy at a concrete input. -/
theorem c9_witness :
    mapFind (set memOnlyNat 1000 .EPOCH_INFO (some 7) (some "id")
        (some 5)).state.inMemoryCache (buildKey .EPOCH_INFO (some "id")) =
      some { data := some 7, expires := 1000 + 5 * 1000 } ∧
    mapFind (set memOnlyNat 1000 .EPOCH_INFO (some 7) (some "id")
        none).state.inMemoryCache (buildKey .EPOCH_INFO (some "id")) =
      some { data := some 7, expires := 1000 + CACHE_TTLS .EPOCH_INFO * 1000 } ∧
    mapFind (set memOnlyNat 1000 .EPOCH_INFO (some 7) (some "id")
        (some 0)).state.inMemoryCache (buildKey .EPOCH_INFO (some "id")) =
      some { data := some 7, expires := 1000 + CACHE_TTLS .EPOCH_INFO * 1000 } ∧
    CACHE_TTLS .VALIDATORS = 300 ∧ CACHE_TTLS .VALIDATOR_DETAIL = 120 ∧
    CACHE_TTLS .EPOCH_INFO = 30 ∧ CACHE_TTLS .NETWORK_STATS = 300 ∧
    CACHE_TTLS .WALLET_STAKE_ACCOUNTS = 180 :=
  c9_ttl_policy memOnlyNat 1000 .EPOCH_INFO (some 7) (some "id") 5 rfl
    (by decide) (by decide)

theorem cacheOrFetch_of_get_none {α : Type} (S : CacheState α) (now : Nat)
    (kt : CacheKeys) (id : Option String) (ttl : Option Nat)
    (f : Unit → Option α) (h : (get S now kt id).value = none) :
    (cacheOrFetch S now kt f id ttl).fetchCalls = 1 ∧
      (cacheOrFetch S now kt f id ttl).value = f () := by
  simp [cacheOrFetch, h]

/-- C10: a fetch function resolving to null is re-invoked by cacheOrFetch
on every call, even within an unexpired TTL, because a stored null is
indistinguishable from a cache miss at the public get boundary — get
returns null both for absent keys and for cached null values — so null
results are never served from the cache. -/
theorem c10_null_never_cached {α : Type} (st : CacheState α)
    (now1 now2 : Nat) (kt : CacheKeys) (id : Option String)
    (ttl : Option Nat)
    (hr : st.hasRedis = false)
    (hmem : st.enableInMemoryFallback = true)
    (habs : mapFind st.inMemoryCache (buildKey kt id) = none) :
    (∀ st2 : CacheState α, st2.hasRedis = false →
      st2.enableInMemoryFallback = true →
      mapFind st2.inMemoryCache (buildKey kt id) = none →
      (get st2 now2 kt id).value = none) ∧
    (∀ (st2 : CacheState α) (e : Nat), st2.hasRedis = false →
      st2.enableInMemoryFallback = true →
      mapFind st2.inMemoryCache (buildKey kt id) =
        some { data := none, expires := e } →
      (get st2 now2 kt id).value = none) ∧
    (cacheOrFetch st now1 kt (fun _ => none) id ttl).fetchCalls = 1 ∧
    (cacheOrFetch st now1 kt (fun _ => none) id ttl).value = none ∧
    (cacheOrFetch (cacheOrFetch st now1 kt (fun _ => none) id ttl).state
      now2 kt (fun _ => none) id ttl).fetchCalls = 1 ∧
    (cacheOrFetch (cacheOrFetch st now1 kt (fun _ => none) id ttl).state
      now2 kt (fun _ => none) id ttl).value = none := by
  have hno : ¬ (st.isRedisConnected = true ∧ st.hasRedis = true) := by
    simp [hr]
  have habsget : ∀ st2 : CacheState α, st2.hasRedis = false →
      st2.enableInMemoryFallback = true →
      mapFind st2.inMemoryCache (buildKey kt id) = none →
      (get st2 now2 kt id).value = none := by
    intro st2 hr2 hmem2 habs2
    rw [get_noRemote_absent st2 now2 kt id (by simp [hr2]) hmem2 habs2]
  have hnullget : ∀ (st2 : CacheState α) (e : Nat), st2.hasRedis = false →
      st2.enableInMemoryFallback = true →
      mapFind st2.inMemoryCache (buildKey kt id) =
        some { data := none, expires := e } →
      (get st2 now2 kt id).value = none := by
    intro st2 e hr2 hmem2 hfind2
    by_cases he : e > now2
    · rw [get_noRemote_hit st2 now2 kt id { data := none, expires := e }
        (by simp [hr2]) hmem2 hfind2 he]
    · rw [get_noRemote_expired st2 now2 kt id { data := none, expires := e }
        (by simp [hr2]) hmem2 hfind2 he]
  have hget1 := get_noRemote_absent st now1 kt id hno hmem habs
  have hno0 : ¬ (({ st with misses := st.misses + 1 } :
      CacheState α).isRedisConnected = true ∧
      ({ st with misses := st.misses + 1 } :
        CacheState α).hasRedis = true) := by simp [hr]
  have hset1 := set_noRemote { st with misses := st.misses + 1 } now1 kt
    none id ttl hno0 hmem
  have e1 : cacheOrFetch st now1 kt (fun _ => none) id ttl =
      { value := none,
        state := { st with
          misses := st.misses + 1
          inMemoryCache := mapSet st.inMemoryCache (buildKey kt id)
            { data := none, expires := now1 +
              effectiveTTL { st with misses := st.misses + 1 } kt ttl
                * 1000 } },
        fetchCalls := 1, remoteCalls := 0 } := by
    simp [cacheOrFetch, hget1, hset1]
  have hfind2 : mapFind (cacheOrFetch st now1 kt (fun _ => none) id
      ttl).state.inMemoryCache (buildKey kt id) =
      some { data := none, expires := now1 +
        effectiveTTL { st with misses := st.misses + 1 } kt ttl * 1000 } := by
    rw [e1]
    exact mapFind_mapSet_self _ _ _
  have hr1 : (cacheOrFetch st now1 kt (fun _ => none) id
      ttl).state.hasRedis = false := by rw [e1]; exact hr
  have hmem1 : (cacheOrFetch st now1 kt (fun _ => none) id
      ttl).state.enableInMemoryFallback = true := by rw [e1]; exact hmem
  have hval2 := hnullget (cacheOrFetch st now1 kt (fun _ => none) id
      ttl).state _ hr1 hmem1 hfind2
  have hlast := cacheOrFetch_of_get_none
    (cacheOrFetch st now1 kt (fun _ => none) id ttl).state now2 kt id ttl
    (fun _ => none) hval2
  exact ⟨habsget, hnullget, by rw [e1], by rw [e1], hlast.1, hlast.2⟩

/-- C10 witness: the theorem applied at a concrete input. -/
theorem c10_witness :
    (∀ st2 : CacheState Nat, st2.hasRedis = false →
      st2.enableInMemoryFallback = true →
      mapFind st2.inMemoryCache (buildKey .VALIDATORS none) = none →
      (get st2 2000 .VALIDATORS none).value = none) ∧
    (∀ (st2 : CacheState Nat) (e : Nat), st2.hasRedis = false →
      st2.enableInMemoryFallback = true →
      mapFind st2.inMemoryCache (buildKey .VALIDATORS none) =
        some { data := none, expires := e } →
      (get st2 2000 .VALIDATORS none).value = none) ∧
    (cacheOrFetch memOnlyNat 1000 .VALIDATORS (fun _ => none) none
      (some 10)).fetchCalls = 1 ∧
    (cacheOrFetch memOnlyNat 1000 .VALIDATORS (fun _ => none) none
      (some 10)).value = none ∧
    (cacheOrFetch (cacheOrFetch memOnlyNat 1000 .VALIDATORS (fun _ => none)
      none (some 10)).state 2000 .VALIDATORS (fun _ => none) none
      (some 10)).fetchCalls = 1 ∧
    (cacheOrFetch (cacheOrFetch memOnlyNat 1000 .VALIDATORS (fun _ => none)
      none (some 10)).state 2000 .VALIDATORS (fun _ => none) none
      (some 10)).value = none :=
  c10_null_never_cached memOnlyNat 1000 2000 .VALIDATORS none (some 10)
    rfl rfl rfl

end CacheService

namespace CacheService

/-- C3: when every remote-tier operation raises, get never raises and an
absent key is counted as a miss; set never raises and still writes the
local in-memory tier; and a get for that key right after the set (TTL
unexpired) returns the value that was set, served by the local tier alone
with no remote call issued. -/
theorem c3_local_tier_absorbs_remote_failure {α : Type} (st : CacheState α)
    (now1 now2 : Nat) (kt : CacheKeys) (id : Option String) (v : α)
    (ttl : Nat)
    (hc : st.isRedisConnected = true) (hh : st.hasRedis = true)
    (hf : st.redisFailing = true)
    (hmem : st.enableInMemoryFallback = true)
    (habs : mapFind st.inMemoryCache (buildKey kt id) = none)
    (httl : ttl ≠ 0) (h2 : now2 < now1 + ttl * 1000) :
    (get st now1 kt id).value = none ∧
    (get st now1 kt id).state.misses = st.misses + 1 ∧
    mapFind (set st now1 kt (some v) id
        (some ttl)).state.inMemoryCache (buildKey kt id) =
      some { data := some v, expires := now1 + ttl * 1000 } ∧
    (get (set st now1 kt (some v) id (some ttl)).state now2 kt id).value =
      some v ∧
    (get (set st now1 kt (some v) id (some ttl)).state now2 kt
      id).remoteCalls = 0 := by
  have hget0 := get_remoteFailing st now1 kt id hc hh hf
  have hno1 : ¬ (({ st with isRedisConnected := false } :
      CacheState α).isRedisConnected = true ∧
      ({ st with isRedisConnected := false } :
        CacheState α).hasRedis = true) := by simp
  have hget1 := get_noRemote_absent { st with isRedisConnected := false }
    now1 kt id hno1 hmem habs
  have hset0 := set_remoteFailing st now1 kt (some v) id (some ttl) hc hh hf
  have hset1 := set_noRemote { st with isRedisConnected := false } now1 kt
    (some v) id (some ttl) hno1 hmem
  rw [effectiveTTL_some _ kt ttl httl] at hset1
  have hsetState : (set st now1 kt (some v) id (some ttl)).state =
      { st with
          isRedisConnected := false
          inMemoryCache := mapSet st.inMemoryCache (buildKey kt id)
            { data := some v, expires := now1 + ttl * 1000 } } := by
    rw [hset0, hset1]
  have hfind2 : mapFind (set st now1 kt (some v) id
      (some ttl)).state.inMemoryCache (buildKey kt id) =
      some { data := some v, expires := now1 + ttl * 1000 } := by
    rw [hsetState]
    exact mapFind_mapSet_self _ _ _
  have hget2 := get_noRemote_hit (set st now1 kt (some v) id
      (some ttl)).state now2 kt id
      { data := some v, expires := now1 + ttl * 1000 }
      (by rw [hsetState]; simp) (by rw [hsetState]; exact hmem) hfind2 h2
  refine ⟨?_, ?_, hfind2, ?_, ?_⟩
  · rw [hget0, hget1]
  · rw [hget0, hget1]
  · rw [hget2]
  · rw [hget2]

/-- C3 witness: the theorem applied at a concrete input. -/
theorem c3_witness :
    (get remoteFailingNat 1000 .EPOCH_INFO (some "x")).value = none ∧
    (get remoteFailingNat 1000 .EPOCH_INFO (some "x")).state.misses =
      remoteFailingNat.misses + 1 ∧
    mapFind (set remoteFailingNat 1000 .EPOCH_INFO (some 9) (some "x")
        (some 30)).state.inMemoryCache
        (buildKey .EPOCH_INFO (some "x")) =
      some { data := some 9, expires := 1000 + 30 * 1000 } ∧
    (get (set remoteFailingNat 1000 .EPOCH_INFO (some 9) (some "x")
      (some 30)).state 2000 .EPOCH_INFO (some "x")).value = some 9 ∧
    (get (set remoteFailingNat 1000 .EPOCH_INFO (some 9) (some "x")
      (some 30)).state 2000 .EPOCH_INFO (some "x")).remoteCalls = 0 :=
  c3_local_tier_absorbs_remote_failure remoteFailingNat 1000 2000
    .EPOCH_INFO (some "x") 9 30 rfl rfl rfl rfl rfl (by decide) (by decide)

/-- C8: after one operation on a failing remote tier the cache is degraded
(remote marked not connected), and every subsequent sequence of get, set
and delete operations issues no remote call at all and remains degraded
until something external flips the connection state back. -/
theorem c8_degraded_skips_remote {α : Type} (st : CacheState α)
    (op : CacheOp α) (ops : List (CacheOp α))
    (hc : st.isRedisConnected = true) (hh : st.hasRedis = true)
    (hf : st.redisFailing = true) :
    (runOp st op).1.isRedisConnected = false ∧
    (runOps (runOp st op).1 ops).2 = 0 ∧
    (runOps (runOp st op).1 ops).1.isRedisConnected = false := by
  have h1 : (runOp st op).1.isRedisConnected = false := by
    cases op with
    | opGet now kt id =>
        have := get_remoteFailing st now kt id hc hh hf
        have hd := get_disconnected
          ({ st with isRedisConnected := false }) now kt id (by simp)
        simp only [runOp, this]
        exact hd.2
    | opSet now kt v id ttl =>
        have := set_remoteFailing st now kt v id ttl hc hh hf
        have hd := set_disconnected
          ({ st with isRedisConnected := false }) now kt v id ttl (by simp)
        simp only [runOp, this]
        exact hd.2
    | opDelete kt id =>
        have := delete_remoteFailing st kt id hc hh hf
        have hd := delete_disconnected
          ({ st with isRedisConnected := false }) kt id (by simp)
        simp only [runOp, this]
        exact hd.2
  have h2 := runOps_disconnected ops (runOp st op).1 h1
  exact ⟨h1, h2.1, h2.2⟩

/-- C8 witness: the theorem applied to a concrete failing state and a
concrete sequence of subsequent operations. -/
theorem c8_witness :
    (runOp remoteFailingNat
      (CacheOp.opGet 1000 .VALIDATORS none)).1.isRedisConnected = false ∧
    (runOps (runOp remoteFailingNat (CacheOp.opGet 1000 .VALIDATORS none)).1
      [CacheOp.opSet 2000 .EPOCH_INFO (some 3) (some "a") none,
       CacheOp.opGet 3000 .EPOCH_INFO (some "a"),
       CacheOp.opDelete .EPOCH_INFO (some "a")]).2 = 0 ∧
    (runOps (runOp remoteFailingNat (CacheOp.opGet 1000 .VALIDATORS none)).1
      [CacheOp.opSet 2000 .EPOCH_INFO (some 3) (some "a") none,
       CacheOp.opGet 3000 .EPOCH_INFO (some "a"),
       CacheOp.opDelete .EPOCH_INFO (some "a")]).1.isRedisConnected =
      false :=
  c8_degraded_skips_remote remoteFailingNat
    (CacheOp.opGet 1000 .VALIDATORS none)
    [CacheOp.opSet 2000 .EPOCH_INFO (some 3) (some "a") none,
     CacheOp.opGet 3000 .EPOCH_INFO (some "a"),
     CacheOp.opDelete .EPOCH_INFO (some "a")] rfl rfl rfl

end CacheService

/-! ## Helper lemmas about the snapshot fetcher embedding -/

namespace ValidatorService

theorem chunksOfAux_foldl (attempt : String → Nat → AttemptOutcome) :
    ∀ (fuel : Nat) (l : List String) (m : List (String × String)),
      l.length ≤ fuel →
      (chunksOfAux fuel l).foldl
        (fun acc batch => processBatch attempt batch acc) m =
      l.foldl (batchStep attempt) m := by
  intro fuel
  induction fuel with
  | zero =>
      intro l m h
      have hl : l = [] := List.eq_nil_of_length_eq_zero (Nat.le_zero.mp h)
      subst hl
      simp [chunksOfAux]
  | succ fuel ih =>
      intro l m h
      cases l with
      | nil => simp [chunksOfAux]
      | cons x xs =>
          have hlen : ((x :: xs).drop BATCH_SIZE).length ≤ fuel := by
            simp only [List.length_drop, List.length_cons, BATCH_SIZE]
              at h ⊢
            omega
          simp only [chunksOfAux, List.foldl_cons]
          rw [ih ((x :: xs).drop BATCH_SIZE)
            (processBatch attempt ((x :: xs).take BATCH_SIZE) m) hlen]
          rw [processBatch, ← List.foldl_append, List.take_append_drop]
          rfl

theorem fetchValidatorInfoBatch_eq_foldl
    (attempt : String → Nat → AttemptOutcome) (pks : List String) :
    fetchValidatorInfoBatch attempt pks = pks.foldl (batchStep attempt) [] := by
  rw [fetchValidatorInfoBatch, chunksOf]
  exact chunksOfAux_foldl attempt pks.length pks [] (Nat.le_refl _)

theorem mapFind_batchStep_ne (attempt : String → Nat → AttemptOutcome)
    (m : List (String × String)) (q pk : String) (hne : pk ≠ q) :
    mapFind (batchStep attempt m q) pk = mapFind m pk := by
  cases hgn : getValidatorName (attempt q) with
  | none => simp [batchStep, hgn]
  | some n =>
      by_cases hn : n = "" <;>
        simp [batchStep, hgn, hn, mapFind_mapSet_ne _ _ _ _ hne]

theorem foldl_batchStep_not_mem (attempt : String → Nat → AttemptOutcome) :
    ∀ (pks : List String) (m : List (String × String)) (pk : String),
      pk ∉ pks →
      mapFind (pks.foldl (batchStep attempt) m) pk = mapFind m pk := by
  intro pks
  induction pks with
  | nil => intro m pk _; rfl
  | cons q rest ih =>
      intro m pk hpk
      have hq : pk ∉ rest := fun h => hpk (List.mem_cons_of_mem _ h)
      have hne : pk ≠ q := fun h => hpk (h ▸ List.mem_cons_self q rest)
      simp only [List.foldl_cons]
      rw [ih _ pk hq, mapFind_batchStep_ne attempt m q pk hne]

theorem foldl_batchStep_find (attempt : String → Nat → AttemptOutcome) :
    ∀ (pks : List String) (m : List (String × String)) (pk : String),
      pks.Nodup → pk ∈ pks → mapFind m pk = none →
      mapFind (pks.foldl (batchStep attempt) m) pk =
        jsOrNullStr (getValidatorName (attempt pk)) := by
  intro pks
  induction pks with
  | nil => intro m pk _ h; cases h
  | cons q rest ih =>
      intro m pk hnodup hmem hnone
      simp only [List.foldl_cons]
      rcases List.mem_cons.mp hmem with heq | hmem2
      · subst heq
        have hnotin : pk ∉ rest := (List.nodup_cons.mp hnodup).1
        rw [foldl_batchStep_not_mem attempt rest _ pk hnotin]
        cases hgn : getValidatorName (attempt pk) with
        | none => simp [batchStep, hgn, jsOrNullStr, hnone]
        | some n =>
            by_cases hn : n = ""
            · simp [batchStep, hgn, hn, jsOrNullStr, hnone]
            · simp [batchStep, hgn, hn, jsOrNullStr, mapFind_mapSet_self]
      · have hnodup2 := (List.nodup_cons.mp hnodup).2
        have hqne : pk ≠ q := by
          intro h
          subst h
          exact (List.nodup_cons.mp hnodup).1 hmem2
        have hnone2 : mapFind (batchStep attempt m q) pk = none := by
          rw [mapFind_batchStep_ne attempt m q pk hqne]
          exact hnone
        exact ih _ pk hnodup2 hmem2 hnone2

theorem infoMap_find (attempt : String → Nat → AttemptOutcome)
    (pks : List String) (pk : String) (hnodup : pks.Nodup)
    (hmem : pk ∈ pks) :
    mapFind (fetchValidatorInfoBatch attempt pks) pk =
      jsOrNullStr (getValidatorName (attempt pk)) := by
  rw [fetchValidatorInfoBatch_eq_foldl]
  exact foldl_batchStep_find attempt pks [] pk hnodup hmem rfl

theorem retryLoop_all_error (attempt : Nat → AttemptOutcome)
    (h : ∀ k, attempt k = .error ()) :
    ∀ (fuel i : Nat), retryLoop attempt i fuel = none := by
  intro fuel
  induction fuel with
  | zero => intro i; rfl
  | succ fuel ih =>
      intro i
      by_cases hf : fuel = 0 <;> simp [retryLoop, h i, hf, ih]

theorem getValidatorName_all_error (attempt : Nat → AttemptOutcome)
    (h : ∀ k, attempt k = .error ()) : getValidatorName attempt = none :=
  retryLoop_all_error attempt h MAX_RETRIES 1

theorem foldl_stake_sum :
    ∀ (l : List ValidatorInfo) (n : Nat),
      l.foldl (fun sum v => sum + v.stake) n =
        n + (l.map (fun v => v.stake)).sum := by
  intro l
  induction l with
  | nil => intro n; simp
  | cons x xs ih =>
      intro n
      simp only [List.foldl_cons, List.map_cons, List.sum_cons, ih]
      omega

theorem map_stake_of_entries (m : List (String × String))
    (l : List VoteAccountEntry) :
    (l.map (toValidatorInfo m)).map (fun v => v.stake) =
      l.map (fun e => e.activatedStake) := by
  simp [List.map_map, toValidatorInfo, Function.comp]

theorem map_activatedStake_of_entries (m : List (String × String))
    (l : List VoteAccountEntry) :
    (l.map (toValidatorInfo m)).map (fun v => v.activatedStake) =
      l.map (fun e => e.activatedStake) := by
  simp [List.map_map, toValidatorInfo, Function.comp]

/-- C2: for every fetched validator set (any combination of current and
delinquent upstream lists), the returned snapshot has totalStake equal to
the sum of activatedStake over its records, and totalValidators equal to
the number of records, which is the current count plus the delinquent
count. -/
theorem c2_snapshot_totals (ei : EpochInfo) (va : VoteAccountStatus)
    (attempt : String → Nat → AttemptOutcome) (now : Nat)
    (r : ValidatorInfoResponse)
    (h : getValidators (.ok ei) (.ok (some va)) attempt now = .ok r) :
    r.totalStake = (r.validators.map (fun v => v.activatedStake)).sum ∧
    r.totalValidators = r.validators.length ∧
    r.totalValidators =
      (va.current.getD []).length + (va.delinquent.getD []).length := by
  simp only [getValidators] at h
  rw [Except.ok.injEq] at h
  subst h
  refine ⟨?_, rfl, ?_⟩
  · rw [foldl_stake_sum, map_stake_of_entries, map_activatedStake_of_entries]
    simp
  · simp [List.length_append]

end ValidatorService

/-! ## Concrete fetcher inputs used by witnesses -/

/-- Scenario of the spec: current validators with stakes 1000000000 and
500000000 lamports. -/
def entryA : ValidatorService.VoteAccountEntry :=
  { votePubkey := "A", nodePubkey := "NA", activatedStake := 1000000000,
    commission := 5, epochVoteAccount := true, epochCredits := [],
    lastVote := none, rootSlot := none }

def entryB : ValidatorService.VoteAccountEntry :=
  { votePubkey := "B", nodePubkey := "NB", activatedStake := 500000000,
    commission := 6, epochVoteAccount := true, epochCredits := [],
    lastVote := none, rootSlot := none }

/-- Scenario of the spec: one delinquent validator with stake 300000000. -/
def entryC : ValidatorService.VoteAccountEntry :=
  { votePubkey := "C", nodePubkey := "NC", activatedStake := 300000000,
    commission := 7, epochVoteAccount := false, epochCredits := [],
    lastVote := none, rootSlot := none }

def vaScenario : ValidatorService.VoteAccountStatus :=
  { current := some [entryA, entryB], delinquent := some [entryC] }

/-- The response getValidators assembles from vaScenario when every
metadata lookup raises. -/
def rScenario : ValidatorService.ValidatorInfoResponse :=
  { validators :=
      [{ identity := "A", name := none, stake := 1000000000,
         commission := 5, activatedStake := 1000000000,
         epochVoteAccount := true, nodePubkey := "NA", rootSlot := none,
         lastVote := none, epochCredits := [] },
       { identity := "B", name := none, stake := 500000000,
         commission := 6, activatedStake := 500000000,
         epochVoteAccount := true, nodePubkey := "NB", rootSlot := none,
         lastVote := none, epochCredits := [] },
       { identity := "C", name := none, stake := 300000000,
         commission := 7, activatedStake := 300000000,
         epochVoteAccount := false, nodePubkey := "NC", rootSlot := none,
         lastVote := none, epochCredits := [] }],
    epoch := 42, totalValidators := 3, totalStake := 1800000000,
    timestamp := 99 }

namespace ValidatorService

/-- C2 witness: the totals invariant at the concrete scenario of the spec
(two current validators and one delinquent, stakes summing to
1800000000 lamports over 3 records). -/
theorem c2_witness :
    rScenario.totalStake =
      (rScenario.validators.map (fun v => v.activatedStake)).sum ∧
    rScenario.totalValidators = rScenario.validators.length ∧
    rScenario.totalValidators =
      (vaScenario.current.getD []).length +
        (vaScenario.delinquent.getD []).length :=
  c2_snapshot_totals ⟨42⟩ vaScenario (fun _ _ => .error ()) 99 rScenario rfl

/-- C7: when the metadata lookup of one validator fails permanently (every
retry attempt raises), the overall getValidators call still succeeds, the
snapshot still has a record for every member of the set, the failed
member keeps a null name, and every other member whose lookup completed
with a truthy name still carries that name. -/
theorem c7_lookup_failure_isolated (ei : EpochInfo) (va : VoteAccountStatus)
    (attempt : String → Nat → AttemptOutcome) (now : Nat)
    (r : ValidatorInfoResponse) (i : Nat) (w : VoteAccountEntry)
    (h : getValidators (.ok ei) (.ok (some va)) attempt now = .ok r)
    (hnodup : ((va.current.getD [] ++ va.delinquent.getD []).map
      (fun v => v.votePubkey)).Nodup)
    (hw : (va.current.getD [] ++ va.delinquent.getD [])[i]? = some w)
    (hfail : ∀ k, attempt w.votePubkey k = .error ()) :
    r.validators.length =
      (va.current.getD [] ++ va.delinquent.getD []).length ∧
    (r.validators[i]?).map (fun x => x.name) = some none ∧
    (∀ (j : Nat) (u : VoteAccountEntry) (n : String),
      (va.current.getD [] ++ va.delinquent.getD [])[j]? = some u →
      getValidatorName (attempt u.votePubkey) = some n → n ≠ "" →
      (r.validators[j]?).map (fun x => x.name) = some (some n)) := by
  simp only [getValidators] at h
  rw [Except.ok.injEq] at h
  subst h
  refine ⟨by simp, ?_, ?_⟩
  · have hmemw : w.votePubkey ∈
        (va.current.getD [] ++ va.delinquent.getD []).map
          (fun v => v.votePubkey) :=
      List.mem_map_of_mem _ (List.getElem?_mem hw)
    have hfind := infoMap_find attempt _ w.votePubkey hnodup hmemw
    rw [getValidatorName_all_error (attempt w.votePubkey) hfail] at hfind
    rw [List.map_append] at hfind
    simp only [List.getElem?_map, hw, Option.map_some]
    simp [toValidatorInfo, hfind, jsOrNullStr]
  · intro j u n hu hn hne
    have hmemu : u.votePubkey ∈
        (va.current.getD [] ++ va.delinquent.getD []).map
          (fun v => v.votePubkey) :=
      List.mem_map_of_mem _ (List.getElem?_mem hu)
    have hfind := infoMap_find attempt _ u.votePubkey hnodup hmemu
    rw [hn] at hfind
    rw [List.map_append] at hfind
    simp only [List.getElem?_map, hu, Option.map_some]
    simp [toValidatorInfo, hfind, jsOrNullStr, hne]

end ValidatorService

/-- Metadata-lookup oracle where validator A always raises and every other
lookup completes on the first attempt with the name BeeName. -/
def attemptC7 : String → Nat → ValidatorService.AttemptOutcome :=
  fun pk _ => if pk = "A" then .error () else .ok (some "BeeName")

/-- Response getValidators assembles from vaScenario under attemptC7. -/
def rC7 : ValidatorService.ValidatorInfoResponse :=
  { validators :=
      [{ identity := "A", name := none, stake := 1000000000,
         commission := 5, activatedStake := 1000000000,
         epochVoteAccount := true, nodePubkey := "NA", rootSlot := none,
         lastVote := none, epochCredits := [] },
       { identity := "B", name := some "BeeName", stake := 500000000,
         commission := 6, activatedStake := 500000000,
         epochVoteAccount := true, nodePubkey := "NB", rootSlot := none,
         lastVote := none, epochCredits := [] },
       { identity := "C", name := some "BeeName", stake := 300000000,
         commission := 7, activatedStake := 300000000,
         epochVoteAccount := false, nodePubkey := "NC", rootSlot := none,
         lastVote := none, epochCredits := [] }],
    epoch := 42, totalValidators := 3, totalStake := 1800000000,
    timestamp := 99 }

namespace ValidatorService

/-- C7 witness: the theorem applied with validator A failing permanently in
a set of three; A keeps a null name, B and C keep their looked-up names,
and the call still succeeds with all three records. -/
theorem c7_witness :
    rC7.validators.length =
      (vaScenario.current.getD [] ++ vaScenario.delinquent.getD []).length ∧
    (rC7.validators[0]?).map (fun x => x.name) = some none ∧
    (∀ (j : Nat) (u : VoteAccountEntry) (n : String),
      (vaScenario.current.getD [] ++
        vaScenario.delinquent.getD [])[j]? = some u →
      getValidatorName (attemptC7 u.votePubkey) = some n → n ≠ "" →
      (rC7.validators[j]?).map (fun x => x.name) = some (some n)) :=
  c7_lookup_failure_isolated ⟨42⟩ vaScenario attemptC7 99 rC7 0 entryA
    rfl (by decide) rfl (fun _ => rfl)

end ValidatorService

/-! ## Helper lemmas about the broadcaster embedding -/

namespace WebSocketService

theorem cycleStep_state (epoch now : Nat) (acc : CycleResult)
    (v : ValidatorService.ValidatorInfo) :
    (cycleStep epoch now acc v).state.lastValidatorStates =
      mapSet acc.state.lastValidatorStates v.identity (baselineOf v) := by
  simp only [cycleStep]
  cases mapFind acc.state.lastValidatorStates v.identity <;> rfl

theorem cycleStep_emitted (epoch now : Nat) (acc : CycleResult)
    (v : ValidatorService.ValidatorInfo) :
    (cycleStep epoch now acc v).emitted =
      acc.emitted ++
        (match mapFind acc.state.lastValidatorStates v.identity with
         | none => []
         | some last => diffValidator last v epoch now) := by
  simp only [cycleStep]
  cases mapFind acc.state.lastValidatorStates v.identity <;> simp

theorem flatMap_congr {α β : Type} (l : List α) (g1 g2 : α → List β)
    (h : ∀ u ∈ l, g1 u = g2 u) : l.flatMap g1 = l.flatMap g2 := by
  induction l with
  | nil => rfl
  | cons x xs ih =>
      simp only [List.flatMap_cons]
      rw [h x (List.mem_cons_self x xs),
        ih (fun u hu => h u (List.mem_cons_of_mem x hu))]

theorem cycle_foldl_spec (epoch now : Nat) :
    ∀ (vs : List ValidatorService.ValidatorInfo) (acc : CycleResult),
      (vs.map (fun v => v.identity)).Nodup →
      ((vs.foldl (cycleStep epoch now) acc).emitted =
        acc.emitted ++ vs.flatMap (fun v =>
          match mapFind acc.state.lastValidatorStates v.identity with
          | none => []
          | some last => diffValidator last v epoch now)) ∧
      (∀ id2, id2 ∉ vs.map (fun v => v.identity) →
        mapFind (vs.foldl (cycleStep epoch now)
            acc).state.lastValidatorStates id2 =
          mapFind acc.state.lastValidatorStates id2) ∧
      (∀ v ∈ vs, mapFind (vs.foldl (cycleStep epoch now)
          acc).state.lastValidatorStates v.identity =
        some (baselineOf v)) := by
  intro vs
  induction vs with
  | nil =>
      intro acc _
      refine ⟨by simp, fun id2 _ => rfl, fun v hv => absurd hv (by simp)⟩
  | cons v rest ih =>
      intro acc hnodup
      rw [List.map_cons] at hnodup
      have hnd := List.nodup_cons.mp hnodup
      have hvnot : v.identity ∉ rest.map (fun u => u.identity) := hnd.1
      have ihr := ih (cycleStep epoch now acc v) hnd.2
      have hstate := cycleStep_state epoch now acc v
      have hemit := cycleStep_emitted epoch now acc v
      have hagree : ∀ u ∈ rest,
          (match mapFind (cycleStep epoch now
              acc v).state.lastValidatorStates u.identity with
           | none => ([] : List UpdateEvent)
           | some last => diffValidator last u epoch now) =
          (match mapFind acc.state.lastValidatorStates u.identity with
           | none => []
           | some last => diffValidator last u epoch now) := by
        intro u hu
        have hune : u.identity ≠ v.identity := by
          intro he
          exact hvnot (he ▸ List.mem_map_of_mem (fun x => x.identity) hu)
        rw [hstate, mapFind_mapSet_ne _ _ _ _ hune]
      refine ⟨?_, ?_, ?_⟩
      · rw [List.foldl_cons, ihr.1, hemit, List.flatMap_cons,
          List.append_assoc]
        congr 1
        congr 1
        exact flatMap_congr rest _ _ hagree
      · intro id2 hid2
        have hne : id2 ≠ v.identity := by
          intro he
          exact hid2 (by simp [he])
        have hnotrest : id2 ∉ rest.map (fun u => u.identity) := by
          intro hmem
          exact hid2 (by simp [hmem])
        rw [List.foldl_cons, ihr.2.1 id2 hnotrest, hstate,
          mapFind_mapSet_ne _ _ _ _ hne]
      · intro u hu
        rcases List.mem_cons.mp hu with heq | hmem
        · subst heq
          rw [List.foldl_cons, ihr.2.1 u.identity hvnot, hstate,
            mapFind_mapSet_self]
        · exact List.foldl_cons _ _ ▸ ihr.2.2 u hmem

theorem filter_flatMap_diff
    (f : ValidatorService.ValidatorInfo → List UpdateEvent)
    (hf : ∀ w, ∀ e ∈ f w, e.voteAccount = w.identity) :
    ∀ (vs : List ValidatorService.ValidatorInfo)
      (v : ValidatorService.ValidatorInfo),
      (vs.map (fun u => u.identity)).Nodup → v ∈ vs →
      (vs.flatMap f).filter (fun e => e.voteAccount = v.identity) = f v := by
  intro vs
  induction vs with
  | nil => intro v _ hv; cases hv
  | cons w rest ih =>
      intro v hnodup hv
      rw [List.map_cons] at hnodup
      have hnd := List.nodup_cons.mp hnodup
      simp only [List.flatMap_cons, List.filter_append]
      rcases List.mem_cons.mp hv with heq | hmem
      · subst heq
        have h1 : (f v).filter (fun e => e.voteAccount = v.identity) =
            f v := by
          rw [List.filter_eq_self]
          intro e he
          simp [hf v e he]
        have h2 : (rest.flatMap f).filter
            (fun e => e.voteAccount = v.identity) = [] := by
          rw [List.filter_eq_nil_iff]
          intro e he
          rcases List.mem_flatMap.mp he with ⟨u, hu, heu⟩
          have := hf u e heu
          simp only [this]
          intro hcon
          exact hnd.1 (by
            have : u.identity = v.identity := by simpa using hcon
            exact this ▸ List.mem_map_of_mem (fun x => x.identity) hu)
        rw [h1, h2, List.append_nil]
      · have hvne : v.identity ≠ w.identity := by
          intro he
          exact hnd.1 (he ▸ List.mem_map_of_mem (fun x => x.identity) hmem)
        have h1 : (f w).filter (fun e => e.voteAccount = v.identity) =
            [] := by
          rw [List.filter_eq_nil_iff]
          intro e he
          have := hf w e he
          simp only [this]
          intro hcon
          exact hvne (Eq.symm (by simpa using hcon))
        rw [h1, List.nil_append]
        exact ih v hnd.2 hmem

theorem diffValidator_filter_commission (last : VState)
    (v : ValidatorService.ValidatorInfo) (epoch now : Nat) :
    (diffValidator last v epoch now).filter
        (fun e => e.type = "commission_change") =
      (if last.commission ≠ v.commission then
        [{ type := "commission_change", voteAccount := v.identity,
           data := .commissionChange v.identity v.name last.commission
             v.commission epoch,
           timestamp := now } ]
       else []) := by
  simp only [diffValidator]
  split_ifs <;> simp_all

theorem diffValidator_filter_delinquency (last : VState)
    (v : ValidatorService.ValidatorInfo) (epoch now : Nat) :
    (diffValidator last v epoch now).filter
        (fun e => e.type = "delinquency_alert") =
      (if last.epochVoteAccount ∧ ¬ v.epochVoteAccount then
        [{ type := "delinquency_alert", voteAccount := v.identity,
           data := .delinquencyAlert v.identity v.name true 0,
           timestamp := now } ]
       else if ¬ last.epochVoteAccount ∧ v.epochVoteAccount then
        [{ type := "delinquency_alert", voteAccount := v.identity,
           data := .delinquencyAlert v.identity v.name false 0,
           timestamp := now } ]
       else []) := by
  simp only [diffValidator]
  split_ifs <;> simp_all

theorem diffValidator_filter_performance (last : VState)
    (v : ValidatorService.ValidatorInfo) (epoch now : Nat) :
    (diffValidator last v epoch now).filter
        (fun e => e.type = "validator_performance") =
      (if last.lastVote ≠ v.lastVote then
        [{ type := "validator_performance", voteAccount := v.identity,
           data := .performanceUpdate v.identity (v.lastVote.getD 0)
             v.lastVote 0 0,
           timestamp := now } ]
       else []) := by
  simp only [diffValidator]
  split_ifs <;> simp_all

theorem diffValidator_voteAccount (last : VState)
    (v : ValidatorService.ValidatorInfo) (epoch now : Nat) :
    ∀ e ∈ diffValidator last v epoch now, e.voteAccount = v.identity := by
  intro e he
  simp only [diffValidator, List.mem_append] at he
  rcases he with (he | he) | he <;> split at he <;> simp_all

end WebSocketService

namespace WebSocketService

/-- C5: for every validator of a cycle with distinct identities — if
untracked, its baseline is stored and no event is emitted for it
(priming); if tracked, the events emitted for it are exactly its diff
against the stored baseline, which holds exactly one typed event per
differing field category with the old and new values in the payload
(commission change carries oldCommission and newCommission, an active
flip carries the new delinquent boolean in either direction, a last-vote
change carries the new slot), and the baseline is updated to the newly
observed values. -/
theorem c5_per_validator_diff (st : WSState)
    (vd : ValidatorService.ValidatorInfoResponse) (now : Nat)
    (hnodup : (vd.validators.map (fun v => v.identity)).Nodup)
    (v : ValidatorService.ValidatorInfo) (hv : v ∈ vd.validators) :
    mapFind (checkValidatorUpdates st vd
        now).state.lastValidatorStates v.identity = some (baselineOf v) ∧
    (mapFind st.lastValidatorStates v.identity = none →
      (checkValidatorUpdates st vd now).emitted.filter
        (fun e => e.voteAccount = v.identity) = []) ∧
    (∀ last, mapFind st.lastValidatorStates v.identity = some last →
      ((checkValidatorUpdates st vd now).emitted.filter
          (fun e => e.voteAccount = v.identity) =
        diffValidator last v vd.epoch now) ∧
      ((diffValidator last v vd.epoch now).filter
          (fun e => e.type = "commission_change") =
        if last.commission ≠ v.commission then
          [{ type := "commission_change", voteAccount := v.identity,
             data := .commissionChange v.identity v.name last.commission
               v.commission vd.epoch,
             timestamp := now } ]
        else []) ∧
      ((diffValidator last v vd.epoch now).filter
          (fun e => e.type = "delinquency_alert") =
        if last.epochVoteAccount ∧ ¬ v.epochVoteAccount then
          [{ type := "delinquency_alert", voteAccount := v.identity,
             data := .delinquencyAlert v.identity v.name true 0,
             timestamp := now } ]
        else if ¬ last.epochVoteAccount ∧ v.epochVoteAccount then
          [{ type := "delinquency_alert", voteAccount := v.identity,
             data := .delinquencyAlert v.identity v.name false 0,
             timestamp := now } ]
        else []) ∧
      ((diffValidator last v vd.epoch now).filter
          (fun e => e.type = "validator_performance") =
        if last.lastVote ≠ v.lastVote then
          [{ type := "validator_performance", voteAccount := v.identity,
             data := .performanceUpdate v.identity (v.lastVote.getD 0)
               v.lastVote 0 0,
             timestamp := now } ]
        else [])) := by
  have hspec := cycle_foldl_spec vd.epoch now vd.validators
    { state := st, emitted := [], delivered := [] } hnodup
  have hf : ∀ w : ValidatorService.ValidatorInfo,
      ∀ e ∈ (match mapFind st.lastValidatorStates w.identity with
             | none => ([] : List UpdateEvent)
             | some last => diffValidator last w vd.epoch now),
        e.voteAccount = w.identity := by
    intro w e he
    cases hm : mapFind st.lastValidatorStates w.identity with
    | none => rw [hm] at he; cases he
    | some last =>
        rw [hm] at he
        exact diffValidator_voteAccount last w vd.epoch now e he
  have hemit : (checkValidatorUpdates st vd now).emitted.filter
      (fun e => e.voteAccount = v.identity) =
      match mapFind st.lastValidatorStates v.identity with
      | none => []
      | some last => diffValidator last v vd.epoch now := by
    show ((vd.validators.foldl (cycleStep vd.epoch now)
      { state := st, emitted := [], delivered := [] }).emitted.filter
        (fun e => e.voteAccount = v.identity)) = _
    rw [hspec.1]
    simp only [List.nil_append]
    exact filter_flatMap_diff _ hf vd.validators v hnodup hv
  refine ⟨hspec.2.2 v hv, ?_, ?_⟩
  · intro hnone
    rw [hemit, hnone]
  · intro last hlast
    exact ⟨by rw [hemit, hlast],
      diffValidator_filter_commission last v vd.epoch now,
      diffValidator_filter_delinquency last v vd.epoch now,
      diffValidator_filter_performance last v vd.epoch now⟩

end WebSocketService

/-! ## Concrete broadcaster states and events used by witnesses -/

/-- A validator observed with commission 7, inactive, last vote 100. -/
def vTracked : ValidatorService.ValidatorInfo :=
  { identity := "V", name := none, stake := 10, commission := 7,
    activatedStake := 10, epochVoteAccount := false, nodePubkey := "N",
    rootSlot := none, lastVote := some 100, epochCredits := [] }

/-- Broadcaster state already tracking V with commission 5, active. -/
def wsTracked : WebSocketService.WSState :=
  { clients := [], subscriptions := [],
    lastValidatorStates := [("V",
      { commission := 5, epochVoteAccount := true, lastVote := some 100 })] }

/-- One-validator snapshot observed in the next cycle. -/
def vdCycle : ValidatorService.ValidatorInfoResponse :=
  { validators := [vTracked], epoch := 2, totalValidators := 1,
    totalStake := 10, timestamp := 0 }

namespace WebSocketService

/-- C5 witness: the theorem applied to a cycle where commission goes from
5 to 7 and the active flag flips from true to false. -/
theorem c5_witness :
    mapFind (checkValidatorUpdates wsTracked vdCycle
        20).state.lastValidatorStates vTracked.identity =
      some (baselineOf vTracked) ∧
    (mapFind wsTracked.lastValidatorStates vTracked.identity = none →
      (checkValidatorUpdates wsTracked vdCycle 20).emitted.filter
        (fun e => e.voteAccount = vTracked.identity) = []) ∧
    (∀ last, mapFind wsTracked.lastValidatorStates vTracked.identity =
        some last →
      ((checkValidatorUpdates wsTracked vdCycle 20).emitted.filter
          (fun e => e.voteAccount = vTracked.identity) =
        diffValidator last vTracked vdCycle.epoch 20) ∧
      ((diffValidator last vTracked vdCycle.epoch 20).filter
          (fun e => e.type = "commission_change") =
        if last.commission ≠ vTracked.commission then
          [{ type := "commission_change", voteAccount := vTracked.identity,
             data := .commissionChange vTracked.identity vTracked.name
               last.commission vTracked.commission vdCycle.epoch,
             timestamp := 20 } ]
        else []) ∧
      ((diffValidator last vTracked vdCycle.epoch 20).filter
          (fun e => e.type = "delinquency_alert") =
        if last.epochVoteAccount ∧ ¬ vTracked.epochVoteAccount then
          [{ type := "delinquency_alert", voteAccount := vTracked.identity,
             data := .delinquencyAlert vTracked.identity vTracked.name
               true 0,
             timestamp := 20 } ]
        else if ¬ last.epochVoteAccount ∧ vTracked.epochVoteAccount then
          [{ type := "delinquency_alert", voteAccount := vTracked.identity,
             data := .delinquencyAlert vTracked.identity vTracked.name
               false 0,
             timestamp := 20 } ]
        else []) ∧
      ((diffValidator last vTracked vdCycle.epoch 20).filter
          (fun e => e.type = "validator_performance") =
        if last.lastVote ≠ vTracked.lastVote then
          [{ type := "validator_performance",
             voteAccount := vTracked.identity,
             data := .performanceUpdate vTracked.identity
               (vTracked.lastVote.getD 0) vTracked.lastVote 0 0,
             timestamp := 20 } ]
        else [])) :=
  c5_per_validator_diff wsTracked vdCycle 20 (by decide) vTracked
    (by decide)

end WebSocketService

/-- Broadcaster state with one open connection subscribed to all three
event kinds for validator V, which is tracked with commission 5, active,
last vote 100. -/
def wsPerf : WebSocketService.WSState :=
  { clients := [0],
    subscriptions := [(0, ["V:performance", "V:delinquency",
      "V:commission"])],
    lastValidatorStates := [("V",
      { commission := 5, epochVoteAccount := true, lastVote := some 100 })] }

/-- A validator_performance event for V. -/
def perfEv : WebSocketService.UpdateEvent :=
  { type := "validator_performance", voteAccount := "V",
    data := .performanceUpdate "V" 101 (some 101) 0 0, timestamp := 20 }

/-- A commission_change event for V. -/
def commEv : WebSocketService.UpdateEvent :=
  { type := "commission_change", voteAccount := "V",
    data := .commissionChange "V" none 5 7 2, timestamp := 20 }

/-- A delinquency_alert event for V. -/
def delinqEv : WebSocketService.UpdateEvent :=
  { type := "delinquency_alert", voteAccount := "V",
    data := .delinquencyAlert "V" none true 0, timestamp := 20 }

/-- Next observation of V: only the last-vote slot moved to 101. -/
def vPerf : ValidatorService.ValidatorInfo :=
  { identity := "V", name := none, stake := 10, commission := 5,
    activatedStake := 10, epochVoteAccount := true, nodePubkey := "N",
    rootSlot := none, lastVote := some 101, epochCredits := [] }

/-- One-validator snapshot whose only change is the last-vote slot. -/
def vdPerf : ValidatorService.ValidatorInfoResponse :=
  { validators := [vPerf], epoch := 2, totalValidators := 1,
    totalStake := 10, timestamp := 0 }

namespace WebSocketService

/-- C4: evaluation of the code at the failing input. A connection is
subscribed to performance for validator V, so the claimed fan-out should
deliver the validator_performance event for V to it; but broadcast routes
the event under the key V:validator (the first underscore token of
validator_performance), which no subscription can ever contain — the
valid subscription keys end in performance, delinquency or commission —
so the event is delivered to nobody. A full cycle in which only the
last-vote slot changed emits exactly the performance event and delivers
nothing, while commission and delinquency events route correctly. -/
theorem c4_performance_event_undeliverable :
    subsOf wsPerf 0 =
      some ["V:performance", "V:delinquency", "V:commission"] ∧
    eventKey perfEv = "V:validator" ∧
    broadcast wsPerf perfEv = [] ∧
    broadcast wsPerf commEv = [(0, commEv)] ∧
    broadcast wsPerf delinqEv = [(0, delinqEv)] ∧
    (checkValidatorUpdates wsPerf vdPerf 20).emitted = [perfEv] ∧
    (checkValidatorUpdates wsPerf vdPerf 20).delivered = [] := by
  decide

end WebSocketService

/-- Broadcaster state with one open connection that has no subscriptions
yet. -/
def wsSub0 : WebSocketService.WSState :=
  { clients := [0], subscriptions := [(0, [])],
    lastValidatorStates := [] }

namespace WebSocketService

/-- C6 counterexample: a subscribe message for V with events commission
and bogus gets an error reply and adds nothing at all to the subscription
set — the valid name commission in the same message is not added,
refuting the claim that valid names are still added alongside an unknown
one. -/
theorem c6_invalid_events_counterexample :
    (handleSubscribe wsSub0 0 (some "V")
        (some ["commission", "bogus"])).2 =
      [.errorMsg "Invalid event types: bogus"] ∧
    subsOf (handleSubscribe wsSub0 0 (some "V")
        (some ["commission", "bogus"])).1 0 = some [] := by
  decide

theorem mem_setAdd_self (s : List String) (x : String) : x ∈ setAdd s x := by
  by_cases h : x ∈ s <;> simp [setAdd, h]

theorem mem_setAdd_of_mem (s : List String) (x y : String) (h : x ∈ s) :
    x ∈ setAdd s y := by
  by_cases hy : y ∈ s <;> simp [setAdd, hy, h]

theorem mem_foldl_setAdd (va : String) :
    ∀ (evs : List String) (s : List String) (x : String),
      (x ∈ s ∨ ∃ e ∈ evs, x = va ++ ":" ++ e) →
      x ∈ evs.foldl (fun s2 e => setAdd s2 (va ++ ":" ++ e)) s := by
  intro evs
  induction evs with
  | nil =>
      intro s x h
      rcases h with h | ⟨e, he, _⟩
      · exact h
      · cases he
  | cons e rest ih =>
      intro s x h
      simp only [List.foldl_cons]
      apply ih
      rcases h with h | ⟨e2, he2, hx⟩
      · exact Or.inl (mem_setAdd_of_mem _ _ _ h)
      · rcases List.mem_cons.mp he2 with heq | hmem
        · subst heq
          subst hx
          exact Or.inl (mem_setAdd_self _ _)
        · exact Or.inr ⟨e2, hmem, hx⟩

theorem subsOf_setSubs_self (st : WSState) (ws : Client)
    (subs : List String) : subsOf (setSubs st ws subs) ws = some subs := by
  simp [subsOf, setSubs]

/-- C6 (amended): a subscribe message with a non-empty voteAccount and the
events field omitted adds all three event kinds to the subscription set
and replies subscribed; a message whose events list contains any unknown
name is rejected wholesale with an error reply naming the unknown names —
no event name from that message, valid or not, is added. -/
theorem c6_subscribe_defaults_and_rejection (st : WSState) (ws : Client)
    (va : String) (hva : va ≠ "") :
    ((handleSubscribe st ws (some va) none).2 =
      [.subscribedMsg va validEvents]) ∧
    (∀ e ∈ validEvents, (va ++ ":" ++ e) ∈
      ((subsOf (handleSubscribe st ws (some va) none).1 ws).getD [])) ∧
    (∀ evs : List String, (∃ x ∈ evs, x ∉ validEvents) →
      (handleSubscribe st ws (some va) (some evs)).1 = st ∧
      (handleSubscribe st ws (some va) (some evs)).2 =
        [.errorMsg ("Invalid event types: " ++ String.intercalate ", "
          (evs.filter (fun e => ¬ validEvents.contains e)))]) := by
  have hmain : handleSubscribe st ws (some va) none =
      (setSubs st ws (validEvents.foldl
          (fun s e => setAdd s (va ++ ":" ++ e)) ((subsOf st ws).getD [])),
        [.subscribedMsg va validEvents]) := by
    simp [handleSubscribe, hva, validEvents]
  refine ⟨by rw [hmain], ?_, ?_⟩
  · intro e he
    rw [hmain]
    simp only [subsOf_setSubs_self, Option.getD_some]
    exact mem_foldl_setAdd va validEvents _ _ (Or.inr ⟨e, he, rfl⟩)
  · intro evs hex
    constructor
    · simp [handleSubscribe, hva, hex]
    · simp [handleSubscribe, hva, hex]

/-- C6 witness: the amended theorem applied at a concrete connection. -/
theorem c6_witness :
    ((handleSubscribe wsSub0 0 (some "V") none).2 =
      [.subscribedMsg "V" validEvents]) ∧
    (∀ e ∈ validEvents, ("V" ++ ":" ++ e) ∈
      ((subsOf (handleSubscribe wsSub0 0 (some "V") none).1 0).getD [])) ∧
    (∀ evs : List String, (∃ x ∈ evs, x ∉ validEvents) →
      (handleSubscribe wsSub0 0 (some "V") (some evs)).1 = wsSub0 ∧
      (handleSubscribe wsSub0 0 (some "V") (some evs)).2 =
        [.errorMsg ("Invalid event types: " ++ String.intercalate ", "
          (evs.filter (fun e => ¬ validEvents.contains e)))]) :=
  c6_subscribe_defaults_and_rejection wsSub0 0 "V" (by decide)

end WebSocketService
